import Mathlib

/-!
Verification of the tracking-go face-detection service (`main.go`).

The Go program is shallowly embedded:
* machine integers become `Nat`/`Int` (with an explicit `% 2 ^ 64` where the
  Go code uses `uint64` wrap-around arithmetic),
* the `float32` normalized detector outputs become exact rationals `ℚ`; the
  Go conversion `int(f)` (truncation toward zero) becomes `ratTrunc`,
* `time.Time` instants are abstracted as `Int` (nanoseconds); their exact
  textual rendering is irrelevant to every property proved here,
* fallible startup code returns `Option`.
-/

namespace Tracking

/- `Rat.mul` is `@[irreducible]` in Batteries, which blocks elaborator-side
evaluation in `decide`; the kernel itself ignores reducibility, so making it
locally semireducible only lets concrete rational computations evaluate. -/
attribute [local semireducible] Rat.mul

/-- Rect is a bounding box in pixels relative to the captured frame
(struct `Rect` in main.go). -/
structure Rect where
  x : Int
  y : Int
  width : Int
  height : Int
deriving DecidableEq, Repr

/-- Point is a 2D landmark point (struct `Point` in main.go). -/
structure Point where
  x : Int
  y : Int
deriving DecidableEq, Repr

/-- Detection represents a single detected face (struct `Detection` in
main.go).  `score` is the detector confidence; `timestamp` abstracts the
`time.Time` field. -/
structure Detection where
  id : Nat
  bbox : Rect
  landmarks : List Point
  score : ℚ
  timestamp : Int
deriving DecidableEq, Repr

/-- Snapshot is the JSON payload returned by `/faces` (struct `Snapshot`
in main.go). -/
structure Snapshot where
  source : String
  frame : Int
  frameWidth : Int
  frameHeight : Int
  detections : List Detection
  generatedAt : Int
deriving DecidableEq, Repr

/-- FaceStore is the thread-safe latest-value store (struct `FaceStore` in
main.go).  The Go `uint64` version counter is a `Nat` kept below `2 ^ 64`
by the wrap-around in `Set`. -/
structure FaceStore where
  snap : Snapshot
  version : Nat
deriving DecidableEq, Repr

/-- Go zero value of `FaceStore`, as produced by `&FaceStore{}` in `main`
(main.go line 397): zero-value snapshot, version 0. -/
def FaceStore.init : FaceStore :=
  { snap := { source := "", frame := 0, frameWidth := 0, frameHeight := 0,
              detections := [], generatedAt := 0 },
    version := 0 }

/-- `FaceStore.Set` (main.go lines 65-70): replaces the held snapshot and
increments the version with `atomic.AddUint64`, i.e. modulo `2 ^ 64`. -/
def FaceStore.Set (s : FaceStore) (snap : Snapshot) : FaceStore :=
  { snap := snap, version := (s.version + 1) % 2 ^ 64 }

/-- `FaceStore.Get` (main.go lines 72-76): returns the held snapshot and
the version in one locked observation. -/
def FaceStore.Get (s : FaceStore) : Snapshot × Nat :=
  (s.snap, s.version)

/-- One raw row of the Res10 output tensor `[1,1,N,7]`, columns 2..6:
`(confidence, x1, y1, x2, y2)` with normalized coordinates (main.go
line 160).  Columns 0 and 1 (image id, class id) are ignored by the code. -/
structure RawDet where
  conf : ℚ
  x1n : ℚ
  y1n : ℚ
  x2n : ℚ
  y2n : ℚ
deriving DecidableEq, Repr

/-- Go conversion `int(q)` of a real-valued quantity: truncation toward
zero, written with `Nat` division so the rounding mode is explicit. -/
def ratTrunc (q : ℚ) : Int :=
  if 0 ≤ q then Int.ofNat (q.num.toNat / q.den)
  else - Int.ofNat ((- q.num).toNat / q.den)

/-- The clamping sequence of `Detect` (main.go lines 199-217), applied in
exactly the source order: `x1`/`y1` are raised to 0, then `x2`/`y2` are
raised to `x1`/`y1`, then `x2`/`y2` are lowered to the frame bounds.
Note the code never lowers `x1`/`y1` to the frame bounds. -/
def clampBox (W H x1 y1 x2 y2 : Int) : Rect :=
  let x1c := if x1 < 0 then 0 else x1
  let y1c := if y1 < 0 then 0 else y1
  let x2a := if x2 < x1c then x1c else x2
  let y2a := if y2 < y1c then y1c else y2
  let x2c := if x2a > W then W else x2a
  let y2c := if y2a > H then H else y2a
  { x := x1c, y := y1c, width := x2c - x1c, height := y2c - y1c }

/-- Building one `Detection` from raw row `r` at raw index `i` (main.go
lines 194-229): scale the normalized coordinates by the frame size,
truncate toward zero, clamp, and record the raw loop index as `ID`. -/
def mkDetection (i : Nat) (W H now : Int) (r : RawDet) : Detection :=
  { id := i,
    bbox := clampBox W H (ratTrunc (r.x1n * (W : ℚ))) (ratTrunc (r.y1n * (H : ℚ)))
      (ratTrunc (r.x2n * (W : ℚ))) (ratTrunc (r.y2n * (H : ℚ))),
    landmarks := [],
    score := r.conf,
    timestamp := now }

/-- The `for i := 0; i < rows; i++` loop of `Detect` (main.go lines
189-230): rows with `conf < confThresh` are skipped (`continue`), kept
rows produce a `Detection` carrying the raw index `i`. -/
def detectLoop (thr : ℚ) (W H now : Int) : Nat → List RawDet → List Detection
  | _, [] => []
  | i, r :: rs =>
    if r.conf < thr then detectLoop thr W H now (i + 1) rs
    else mkDetection i W H now r :: detectLoop thr W H now (i + 1) rs

/-- Post-processing of `Detect` on the full raw tensor, starting the loop
index at 0. -/
def detectPost (thr : ℚ) (W H now : Int) (raws : List RawDet) : List Detection :=
  detectLoop thr W H now 0 raws

/-- An in-range raw detection: confidence 0.9, box (0.1, 0.1)-(0.2, 0.2). -/
def rawEx : RawDet := ⟨mkRat 9 10, mkRat 1 10, mkRat 1 10, mkRat 1 5, mkRat 1 5⟩

/-- The detection produced from `rawEx` at raw index 0 on a 640x480
frame: pixels (64, 48), size 64x48. -/
def detEx : Detection :=
  { id := 0, bbox := { x := 64, y := 48, width := 64, height := 48 },
    landmarks := [], score := mkRat 9 10, timestamp := 0 }

/-- An out-of-range raw detection: confidence 0.9, `x1n = 2` lies beyond
the right frame edge. -/
def rawFar : RawDet := ⟨mkRat 9 10, mkRat 2 1, 0, mkRat 5 2, mkRat 1 2⟩

/-- A raw detection dropped by the 0.5 confidence filter. -/
def rawLow : RawDet := ⟨mkRat 3 10, 0, 0, 0, 0⟩

/-- The detection produced from `rawEx` at raw index 1 (after a dropped
row) on a 640x480 frame. -/
def detEx1 : Detection :=
  { id := 1, bbox := { x := 64, y := 48, width := 64, height := 48 },
    landmarks := [], score := mkRat 9 10, timestamp := 0 }

/-- DetectorConfig (struct `DetectorConfig` in main.go); the interval is
kept as abstract duration units and `float32 Confidence` as `ℚ`. -/
structure DetectorConfig where
  source : String
  protoTxtPath : String
  modelPath : String
  interval : Int
  confidence : ℚ
  inputW : Int
  inputH : Int
deriving DecidableEq, Repr

/-- The configuration-normalization steps of `NewDNNDetector` (main.go
lines 129-137), in source order: zero input sizes default to 300 and a
confidence at most 0 is silently replaced by 0.5. -/
def normalizeConfig (cfg : DetectorConfig) : DetectorConfig :=
  let cfg1 := if cfg.inputW = 0 then { cfg with inputW := 300 } else cfg
  let cfg2 := if cfg1.inputH = 0 then { cfg1 with inputH := 300 } else cfg1
  if cfg2.confidence ≤ 0 then { cfg2 with confidence := mkRat 1 2 } else cfg2

/-- A configuration asking for threshold 0. -/
def cfgZero : DetectorConfig :=
  { source := "0", protoTxtPath := "models/deploy.prototxt",
    modelPath := "models/res10_300x300_ssd_iter_140000.caffemodel",
    interval := 200, confidence := 0, inputW := 300, inputH := 300 }

/-- Lowercase base-36 digit character, as produced by Go's
`strconv.FormatUint(_, 36)`: digits `0-9` then `a-z`. -/
def b36digit (d : Nat) : Char :=
  if d < 10 then Char.ofNat (48 + d) else Char.ofNat (87 + d)

/-- Numeric value of a lowercase base-36 digit character. -/
def b36val (c : Char) : Nat :=
  if c.toNat < 97 then c.toNat - 48 else c.toNat - 87

/-- Little-endian base-36 digits of a natural number, with structural fuel
so the definition evaluates by kernel reduction. -/
def b36digitsAux : Nat → Nat → List Nat
  | 0, _ => []
  | _ + 1, 0 => []
  | fuel + 1, n + 1 => ((n + 1) % 36) :: b36digitsAux fuel ((n + 1) / 36)

/-- Little-endian base-36 digits of `n`. -/
def b36digits (n : Nat) : List Nat := b36digitsAux n n

/-- Go `strconv.FormatUint(v, 36)`: most-significant digit first,
lowercase, and `"0"` for zero. -/
def natToB36 (n : Nat) : String :=
  if n = 0 then "0" else String.mk ((b36digits n).reverse.map b36digit)

/-- Go `strconv.FormatInt(f, 36)`: a leading minus sign for negative
values, then the base-36 magnitude. -/
def intToB36 (i : Int) : String :=
  if i < 0 then "-" ++ natToB36 i.natAbs else natToB36 i.toNat

/-- `toETag` (main.go lines 339-341): base-36 version, a dash, base-36
frame. -/
def toETag (version : Nat) (frame : Int) : String :=
  natToB36 version ++ "-" ++ intToB36 frame

/-- Value of a little-endian base-36 digit list. -/
def ofB36 : List Nat → Nat
  | [] => 0
  | d :: rest => d + 36 * ofB36 rest

/-- Decoder for the character output of `natToB36`; a left inverse used
to prove injectivity. -/
def decodeB36 (l : List Char) : Nat := ofB36 ((l.map b36val).reverse)

/-- Observable part of an HTTP response of the `/faces` handler: status
code, the `ETag` header if set, and the body. -/
structure HttpResponse where
  status : Nat
  etagHdr : Option String
  body : String
deriving DecidableEq, Repr

/-- Comma-separated concatenation, as in a JSON array body. -/
def joinComma : List String → String
  | [] => ""
  | [s] => s
  | s :: rest => s ++ "," ++ joinComma rest

/-- Rendering of an abstract instant.  Go serializes `time.Time` as an
RFC3339 string; the embedding keeps instants abstract as `Int`, so this
stand-in renders the abstract value — determinism is all that matters to
the properties proved here. -/
def encodeInstant (t : Int) : String := "\"" ++ toString t ++ "\""

/-- JSON object for a `Point`, field names from the `json:` tags. -/
def encodePoint (p : Point) : String :=
  "\x7b\"x\":" ++ toString p.x ++ ",\"y\":" ++ toString p.y ++ "\x7d"

/-- JSON object for a `Rect`, field names from the `json:` tags. -/
def encodeRect (r : Rect) : String :=
  "\x7b\"x\":" ++ toString r.x ++ ",\"y\":" ++ toString r.y ++
    ",\"width\":" ++ toString r.width ++ ",\"height\":" ++ toString r.height ++ "\x7d"

/-- Rendering of a score; the exact number format is irrelevant here. -/
def encodeScore (q : ℚ) : String := toString q.num ++ "/" ++ toString q.den

/-- JSON object for a `Detection`, field names from the `json:` tags;
`landmarks` carries `omitempty`. -/
def encodeDetection (d : Detection) : String :=
  "\x7b\"id\":" ++ toString d.id ++ ",\"bbox\":" ++ encodeRect d.bbox ++
    (if d.landmarks.isEmpty then "" else
      ",\"landmarks\":[" ++ joinComma (d.landmarks.map encodePoint) ++ "]") ++
    ",\"score\":" ++ encodeScore d.score ++
    ",\"ts\":" ++ encodeInstant d.timestamp ++ "\x7d"

/-- JSON object for a `Snapshot`, field names from the `json:` tags
(wire contract); whitespace/indentation of Go's encoder is abstracted, the
encoding is a deterministic function of the snapshot. -/
def encodeSnapshot (s : Snapshot) : String :=
  "\x7b\"source\":\"" ++ s.source ++ "\",\"frame\":" ++ toString s.frame ++
    ",\"frame_width\":" ++ toString s.frameWidth ++
    ",\"frame_height\":" ++ toString s.frameHeight ++
    ",\"detections\":[" ++ joinComma (s.detections.map encodeDetection) ++
    "],\"generated_at\":" ++ encodeInstant s.generatedAt ++ "\x7d"

/-- The validation token the `/faces` handler derives from the store
(main.go line 291): `W/"` + `toETag(version, frame)` + `"`. -/
def etagOf (s : FaceStore) : String :=
  "W/\"" ++ toETag s.Get.2 s.Get.1.frame ++ "\""

/-- The `/faces` handler (main.go lines 285-301): read the store once,
compare the full ETag string against the `If-None-Match` request header
(Go's `Header.Get` returns `""` when absent); on a match answer 304 with
no body and no `ETag` header (the Go code returns before setting it),
otherwise answer 200 with the `ETag` header and the encoded snapshot. -/
def facesHandler (store : FaceStore) (ifNoneMatch : String) : HttpResponse :=
  let snap := store.Get.1
  let ver := store.Get.2
  let etag := "W/\"" ++ toETag ver snap.frame ++ "\""
  if ifNoneMatch = etag then { status := 304, etagHdr := none, body := "" }
  else { status := 200, etagHdr := some etag, body := encodeSnapshot snap }

/-- One atomic action in an interleaving around the store.  `FaceStore.Set`
holds the write lock across its two state changes (replace the snapshot,
bump the version); `Get` is one read action under the read lock. -/
inductive Act
  | wSnap
  | wVer
  | get (i : Nat)
deriving DecidableEq, Repr

/-- State change of one action; `ns` is the snapshot being published. -/
def applyAct (ns : Snapshot) (s : FaceStore) : Act → FaceStore
  | Act.wSnap => { s with snap := ns }
  | Act.wVer => { s with version := (s.version + 1) % 2 ^ 64 }
  | Act.get _ => s

/-- Results of all `get` actions of a schedule, threading the store state
through the actions in order. -/
def getOutputs (ns : Snapshot) : FaceStore → List Act → List (Nat × Snapshot × Nat)
  | _, [] => []
  | s, Act.get i :: rest => (i, s.Get) :: getOutputs ns s rest
  | s, Act.wSnap :: rest => getOutputs ns (applyAct ns s Act.wSnap) rest
  | s, Act.wVer :: rest => getOutputs ns (applyAct ns s Act.wVer) rest

/-- A list of actions consisting only of reads. -/
def IsGets (l : List Act) : Prop := ∀ a ∈ l, ∃ i, a = Act.get i

/-- A published snapshot used in concrete schedules. -/
def snapEx : Snapshot :=
  { source := "cam0", frame := 1, frameWidth := 640, frameHeight := 480,
    detections := [], generatedAt := 0 }

/-- Startup events of `main`: `fatalStartup` is `log.Fatalf` before the
detector goroutine is spawned; `listen` is the HTTP listener accepting
connections; `detectorFatal` is `log.Fatalf` inside the detector
goroutine (`StartDetectorLoop`, main.go line 241). -/
inductive MainEvent
  | fatalStartup
  | listen
  | detectorFatal
deriving DecidableEq, Repr

/-- `getenvRequired` (main.go lines 350-359): an environment value wins
unchecked; otherwise the default path is accepted only if present on
disk; otherwise the process aborts (`none`). -/
def getenvRequired (env : String → String) (onDisk : String → Bool)
    (k defPath : String) : Option String :=
  if env k ≠ "" then some (env k)
  else if onDisk defPath then some defPath
  else none

/-- Possible startup traces of `main` (main.go lines 381-416).  The two
`getenvRequired` calls run before anything serves; then
`go StartDetectorLoop` runs concurrently with `StartHTTPServer`, so when
the detector init fails (`loadable` is false for the resolved paths) both
orders of `detectorFatal` and `listen` are possible traces. -/
def mainTraces (env : String → String) (onDisk : String → Bool)
    (loadable : String → String → Bool) : List (List MainEvent) :=
  match getenvRequired env onDisk "FACE_PROTOTXT" "models/deploy.prototxt" with
  | none => [[MainEvent.fatalStartup]]
  | some prototxt =>
    match getenvRequired env onDisk "FACE_MODEL"
        "models/res10_300x300_ssd_iter_140000.caffemodel" with
    | none => [[MainEvent.fatalStartup]]
    | some model =>
      if loadable prototxt model then [[MainEvent.listen]]
      else [[MainEvent.detectorFatal], [MainEvent.listen, MainEvent.detectorFatal]]

/-- An environment pointing both model variables at nonexistent files. -/
def envBad : String → String := fun k =>
  if k = "FACE_PROTOTXT" then "/nonexistent/deploy.prototxt"
  else if k = "FACE_MODEL" then "/nonexistent/model.caffemodel"
  else ""

/-- An empty environment. -/
def envEmpty : String → String := fun _ => ""

/-- A filesystem with no files. -/
def diskNone : String → Bool := fun _ => false

/-- A loader that fails on every pair of paths. -/
def loadNone : String → String → Bool := fun _ _ => false

/-- Bounds established by the clamping sequence, provided the already
truncated top-left corner does not exceed the frame: the code lowers
`x2`/`y2` to the frame bounds but never lowers `x1`/`y1`. -/
theorem clampBox_bounds (W H x1 y1 x2 y2 : Int) (hW : 0 ≤ W) (hH : 0 ≤ H)
    (hx1 : x1 ≤ W) (hy1 : y1 ≤ H) :
    0 ≤ (clampBox W H x1 y1 x2 y2).x ∧ (clampBox W H x1 y1 x2 y2).x ≤ W ∧
    0 ≤ (clampBox W H x1 y1 x2 y2).y ∧ (clampBox W H x1 y1 x2 y2).y ≤ H ∧
    (clampBox W H x1 y1 x2 y2).x + (clampBox W H x1 y1 x2 y2).width ≤ W ∧
    (clampBox W H x1 y1 x2 y2).y + (clampBox W H x1 y1 x2 y2).height ≤ H ∧
    0 ≤ (clampBox W H x1 y1 x2 y2).width ∧ 0 ≤ (clampBox W H x1 y1 x2 y2).height := by
  unfold clampBox
  dsimp only
  split_ifs <;> omega

/-- Auxiliary invariant for the detection loop, generalized over the
starting raw index. -/
theorem detectLoop_bounds (thr : ℚ) (W H now : Int) (hW : 0 ≤ W) (hH : 0 ≤ H)
    (raws : List RawDet) :
    ∀ i : Nat,
      (∀ r ∈ raws, ratTrunc (r.x1n * (W : ℚ)) ≤ W) →
      (∀ r ∈ raws, ratTrunc (r.y1n * (H : ℚ)) ≤ H) →
      ∀ d ∈ detectLoop thr W H now i raws,
        0 ≤ d.bbox.x ∧ d.bbox.x ≤ W ∧ 0 ≤ d.bbox.y ∧ d.bbox.y ≤ H ∧
        d.bbox.x + d.bbox.width ≤ W ∧ d.bbox.y + d.bbox.height ≤ H ∧
        0 ≤ d.bbox.width ∧ 0 ≤ d.bbox.height := by
  induction raws with
  | nil => intro i _ _ d hd; simp [detectLoop] at hd
  | cons r rs ih =>
    intro i hx hy d hd
    rw [detectLoop] at hd
    by_cases hc : r.conf < thr
    · rw [if_pos hc] at hd
      exact ih (i + 1) (fun s hs => hx s (List.mem_cons_of_mem _ hs))
        (fun s hs => hy s (List.mem_cons_of_mem _ hs)) d hd
    · rw [if_neg hc] at hd
      rcases List.mem_cons.mp hd with h | h
      · subst h
        simpa [mkDetection] using
          clampBox_bounds W H (ratTrunc (r.x1n * (W : ℚ))) (ratTrunc (r.y1n * (H : ℚ)))
            (ratTrunc (r.x2n * (W : ℚ))) (ratTrunc (r.y2n * (H : ℚ))) hW hH
            (hx r (List.mem_cons_self r rs)) (hy r (List.mem_cons_self r rs))
      · exact ih (i + 1) (fun s hs => hx s (List.mem_cons_of_mem _ hs))
          (fun s hs => hy s (List.mem_cons_of_mem _ hs)) d h

/-- Claim C1 (amended): every Detection published by `Detect` satisfies the
box invariant provided each kept raw detection's scaled, truncated
top-left corner does not exceed the frame (in particular for all
normalized `x1n`, `y1n` at most 1).  Without that proviso the claim is
false (see the counterexample): the code never lowers `x1`/`y1` to the
frame bounds, so `x1n > 1` yields `x > frameWidth` and a negative width. -/
theorem detect_bounds (thr : ℚ) (W H now : Int) (raws : List RawDet)
    (hW : 0 ≤ W) (hH : 0 ≤ H)
    (hx : ∀ r ∈ raws, ratTrunc (r.x1n * (W : ℚ)) ≤ W)
    (hy : ∀ r ∈ raws, ratTrunc (r.y1n * (H : ℚ)) ≤ H) :
    ∀ d ∈ detectPost thr W H now raws,
      0 ≤ d.bbox.x ∧ d.bbox.x ≤ W ∧ 0 ≤ d.bbox.y ∧ d.bbox.y ≤ H ∧
      d.bbox.x + d.bbox.width ≤ W ∧ d.bbox.y + d.bbox.height ≤ H ∧
      0 ≤ d.bbox.width ∧ 0 ≤ d.bbox.height :=
  detectLoop_bounds thr W H now hW hH raws 0 hx hy

/-- Claim C1 is false as stated over all normalized inputs: the raw
detection with `x1n = 2`, `x2n = 2.5` on a 640x480 frame yields
`x = 1280 > 640` and `width = -640 < 0`. -/
theorem detect_bounds_counterexample :
    ¬ (∀ d ∈ detectPost (mkRat 1 2) 640 480 0 [rawFar],
        0 ≤ d.bbox.x ∧ d.bbox.x ≤ 640 ∧ 0 ≤ d.bbox.y ∧ d.bbox.y ≤ 480 ∧
        d.bbox.x + d.bbox.width ≤ 640 ∧ d.bbox.y + d.bbox.height ≤ 480 ∧
        0 ≤ d.bbox.width ∧ 0 ≤ d.bbox.height) := by decide

/-- Witness for `detect_bounds` on a concrete in-range raw detection. -/
theorem detect_bounds_witness :
    (detEx ∈ detectPost (mkRat 1 2) 640 480 0 [rawEx]) ∧
    (0 ≤ detEx.bbox.x ∧ detEx.bbox.x ≤ 640 ∧ 0 ≤ detEx.bbox.y ∧ detEx.bbox.y ≤ 480 ∧
     detEx.bbox.x + detEx.bbox.width ≤ 640 ∧ detEx.bbox.y + detEx.bbox.height ≤ 480 ∧
     0 ≤ detEx.bbox.width ∧ 0 ≤ detEx.bbox.height) :=
  ⟨by decide,
   detect_bounds (mkRat 1 2) 640 480 0 [rawEx] (by decide) (by decide)
     (by decide) (by decide) detEx (by decide)⟩

/-- The element a list holds at the length of a prefix it extends. -/
theorem getD_append_cons {α : Type} (d : α) :
    ∀ (pre : List α) (r : α) (post : List α),
      (pre ++ r :: post).getD pre.length d = r := by
  intro pre
  induction pre with
  | nil => intro r post; rfl
  | cons a pre ih => intro r post; simpa using ih r post

/-- Auxiliary form of the id characterization, generalized over the
starting raw index. -/
theorem detectLoop_id_raw (thr : ℚ) (W H now : Int) (raws : List RawDet) :
    ∀ i : Nat, ∀ d ∈ detectLoop thr W H now i raws,
      ∃ pre r post, raws = pre ++ r :: post ∧ d.id = i + pre.length ∧
        ¬ r.conf < thr ∧ d = mkDetection (i + pre.length) W H now r := by
  induction raws with
  | nil => intro i d hd; simp [detectLoop] at hd
  | cons r rs ih =>
    intro i d hd
    rw [detectLoop] at hd
    by_cases hc : r.conf < thr
    · rw [if_pos hc] at hd
      obtain ⟨pre, r', post, heq, hid, hkeep, hdet⟩ := ih (i + 1) d hd
      refine ⟨r :: pre, r', post, by simp [heq], ?_, hkeep, ?_⟩
      · simp only [List.length_cons]; omega
      · rw [show i + (r :: pre).length = i + 1 + pre.length by simp; omega]
        exact hdet
    · rw [if_neg hc] at hd
      rcases List.mem_cons.mp hd with h | h
      · exact ⟨[], r, rs, rfl, by simp [h, mkDetection], hc, by simpa using h⟩
      · obtain ⟨pre, r', post, heq, hid, hkeep, hdet⟩ := ih (i + 1) d h
        refine ⟨r :: pre, r', post, by simp [heq], ?_, hkeep, ?_⟩
        · simp only [List.length_cons]; omega
        · rw [show i + (r :: pre).length = i + 1 + pre.length by simp; omega]
          exact hdet

/-- Claim C2 (amended): every published Detection's `id` is the 0-based
RAW (pre-filter) index of the raw row it was built from — not the position
in the kept list.  Ids are locally unique but not contiguous when rows are
dropped by the confidence filter (see the counterexample). -/
theorem detect_id_raw_index (thr : ℚ) (W H now : Int) (dflt : RawDet)
    (raws : List RawDet) :
    ∀ d ∈ detectPost thr W H now raws,
      d.id < raws.length ∧ ¬ (raws.getD d.id dflt).conf < thr ∧
      d = mkDetection d.id W H now (raws.getD d.id dflt) := by
  intro d hd
  obtain ⟨pre, r, post, heq, hid, hkeep, hdet⟩ :=
    detectLoop_id_raw thr W H now raws 0 d hd
  rw [Nat.zero_add] at hid hdet
  subst heq
  rw [hid, getD_append_cons]
  refine ⟨?_, hkeep, hdet⟩
  simp

/-- Claim C2 is false as stated: with one raw detection below the 0.5
threshold followed by one above it, the single kept detection has id 1,
not 0, so the ids are not `0..n-1`. -/
theorem detect_id_counterexample :
    ¬ ((detectPost (mkRat 1 2) 640 480 0 [rawLow, rawEx]).map Detection.id =
        List.range (detectPost (mkRat 1 2) 640 480 0 [rawLow, rawEx]).length) := by
  decide

/-- Witness for `detect_id_raw_index` on a concrete two-row tensor with a
dropped first row. -/
theorem detect_id_witness :
    (detEx1 ∈ detectPost (mkRat 1 2) 640 480 0 [rawLow, rawEx]) ∧
    (detEx1.id < ([rawLow, rawEx] : List RawDet).length ∧
     ¬ (([rawLow, rawEx] : List RawDet).getD detEx1.id rawLow).conf < mkRat 1 2 ∧
     detEx1 = mkDetection detEx1.id 640 480 0
       (([rawLow, rawEx] : List RawDet).getD detEx1.id rawLow)) :=
  ⟨by decide,
   detect_id_raw_index (mkRat 1 2) 640 480 0 rawLow [rawLow, rawEx] detEx1 (by decide)⟩

/-- Claim C8: the single raw detection `(0.9, -0.1, 0.2, 0.5, 0.1)` on a
640x480 frame with threshold 0.5 yields exactly one Detection with
`x = 0`, `y = 96`, `width >= 0`, `height = 0`: the negative x clamps to 0
and the inverted y-extent collapses to zero height at the clamped corner. -/
theorem detect_example_clamp :
    (detectPost (mkRat 1 2) 640 480 0
        [⟨mkRat 9 10, mkRat (-1) 10, mkRat 1 5, mkRat 1 2, mkRat 1 10⟩]).length = 1 ∧
    ∀ d ∈ detectPost (mkRat 1 2) 640 480 0
        [⟨mkRat 9 10, mkRat (-1) 10, mkRat 1 5, mkRat 1 2, mkRat 1 10⟩],
      d.bbox.x = 0 ∧ d.bbox.y = 96 ∧ 0 ≤ d.bbox.width ∧ d.bbox.height = 0 := by
  decide

/-- The normalized confidence threshold as a single conditional: the input
size defaulting steps do not touch the confidence field. -/
theorem normalizeConfig_confidence (cfg : DetectorConfig) :
    (normalizeConfig cfg).confidence =
      if cfg.confidence ≤ 0 then mkRat 1 2 else cfg.confidence := by
  have hW : ∀ c : DetectorConfig,
      ((if c.inputW = 0 then { c with inputW := 300 } else c) : DetectorConfig).confidence
        = c.confidence := by
    intro c; split <;> rfl
  have hH : ∀ c : DetectorConfig,
      ((if c.inputH = 0 then { c with inputH := 300 } else c) : DetectorConfig).confidence
        = c.confidence := by
    intro c; split <;> rfl
  unfold normalizeConfig
  dsimp only
  rw [apply_ite DetectorConfig.confidence, hH, hW]

/-- Claim C10: whenever `Confidence <= 0` (including exactly 0),
`NewDNNDetector` silently replaces the threshold with the default 0.5;
consequently the normalized threshold is always positive, so a threshold
of 0 (keep every raw detection) cannot be configured through this
constructor. -/
theorem newDetector_confidence_default (cfg : DetectorConfig) :
    (cfg.confidence ≤ 0 → (normalizeConfig cfg).confidence = mkRat 1 2) ∧
    0 < (normalizeConfig cfg).confidence := by
  rw [normalizeConfig_confidence]
  constructor
  · intro h
    rw [if_pos h]
  · split
    · exact (by decide : (0 : ℚ) < mkRat 1 2)
    · exact lt_of_not_le (by assumption)

/-- Witness for `newDetector_confidence_default` at a configuration with
confidence exactly 0. -/
theorem newDetector_confidence_witness :
    (normalizeConfig cfgZero).confidence = mkRat 1 2 ∧
    0 < (normalizeConfig cfgZero).confidence :=
  ⟨(newDetector_confidence_default cfgZero).1 (by decide),
   (newDetector_confidence_default cfgZero).2⟩

/-- Claim C3: one call to `FaceStore.Set` advances the version by exactly
one in 64-bit unsigned arithmetic and replaces the snapshot; `Get` is a
pure observation (it is the only other store operation and it changes
nothing). -/
theorem FaceStore.set_increments_version (s : FaceStore) (snap : Snapshot) :
    (s.Set snap).version = (s.version + 1) % 2 ^ 64 ∧
    (s.Set snap).snap = snap ∧
    s.Get = (s.snap, s.version) :=
  ⟨rfl, rfl, rfl⟩

/-- Claim C9: on a freshly constructed `FaceStore` (Go zero value), `Get`
returns the zero-value snapshot (empty source, frame 0, zero dimensions,
no detections) together with version 0. -/
theorem FaceStore.init_get :
    FaceStore.init.Get =
      ({ source := "", frame := 0, frameWidth := 0, frameHeight := 0,
         detections := [], generatedAt := 0 }, 0) :=
  rfl

/-- Base-36 digit characters decode back to their value. -/
theorem b36val_digit : ∀ d, d < 36 → b36val (b36digit d) = d := by decide

/-- Base-36 digit characters are never the dash separator. -/
theorem b36digit_ne_dash : ∀ d, d < 36 → b36digit d ≠ Char.ofNat 45 := by decide

/-- Every produced digit is below the base. -/
theorem b36digits_lt : ∀ fuel n d, d ∈ b36digitsAux fuel n → d < 36 := by
  intro fuel
  induction fuel with
  | zero => intro n d hd; simp [b36digitsAux] at hd
  | succ fuel ih =>
    intro n d hd
    match n with
    | 0 => simp [b36digitsAux] at hd
    | m + 1 =>
      rcases List.mem_cons.mp hd with h | h
      · subst h; exact Nat.mod_lt _ (by norm_num)
      · exact ih _ d h

/-- Every digit of `b36digits` is below the base. -/
theorem b36digits_mem_lt : ∀ n d, d ∈ b36digits n → d < 36 :=
  fun n => b36digits_lt n n

/-- Digit extraction round-trips with `ofB36` when the fuel suffices. -/
theorem ofB36_b36digitsAux : ∀ fuel n, n ≤ fuel → ofB36 (b36digitsAux fuel n) = n := by
  intro fuel
  induction fuel with
  | zero => intro n hn; have h0 : n = 0 := Nat.le_zero.mp hn; subst h0; rfl
  | succ fuel ih =>
    intro n hn
    match n with
    | 0 => rfl
    | m + 1 =>
      show (m + 1) % 36 + 36 * ofB36 (b36digitsAux fuel ((m + 1) / 36)) = m + 1
      rw [ih ((m + 1) / 36)
        (by have := Nat.div_lt_self (Nat.succ_pos m) (by norm_num : 1 < 36); omega)]
      exact Nat.mod_add_div (m + 1) 36

/-- Mapping to characters and back is the identity on digit lists. -/
theorem map_b36_roundtrip : ∀ l : List Nat, (∀ d ∈ l, d < 36) →
    (l.map b36digit).map b36val = l := by
  intro l
  induction l with
  | nil => intro _; rfl
  | cons d t ih =>
    intro h
    simp only [List.map_cons]
    rw [b36val_digit d (h d (List.mem_cons_self d t)),
      ih (fun x hx => h x (List.mem_cons_of_mem _ hx))]

/-- `decodeB36` is a left inverse of `natToB36`. -/
theorem decode_natToB36 (n : Nat) : decodeB36 (natToB36 n).data = n := by
  by_cases h : n = 0
  · subst h; decide
  · rw [natToB36, if_neg h]
    show ofB36 ((((b36digits n).reverse.map b36digit).map b36val).reverse) = n
    rw [map_b36_roundtrip _ (fun d hd => b36digits_mem_lt n d (List.mem_reverse.mp hd)),
      List.reverse_reverse]
    exact ofB36_b36digitsAux n n (Nat.le_refl n)

/-- `natToB36` is injective at the character-list level. -/
theorem natToB36_data_inj {a b : Nat}
    (h : (natToB36 a).data = (natToB36 b).data) : a = b := by
  have := congrArg decodeB36 h
  rwa [decode_natToB36, decode_natToB36] at this

/-- The base-36 rendering of a natural number never contains a dash. -/
theorem natToB36_no_dash (n : Nat) : ∀ c ∈ (natToB36 n).data, c ≠ Char.ofNat 45 := by
  by_cases h : n = 0
  · subst h; decide
  · rw [natToB36, if_neg h]
    intro c hc
    have hc2 : c ∈ (b36digits n).reverse.map b36digit := hc
    obtain ⟨d, hd, rfl⟩ := List.mem_map.mp hc2
    exact b36digit_ne_dash d (b36digits_mem_lt n d (List.mem_reverse.mp hd))

/-- The base-36 rendering of a natural number is never empty. -/
theorem natToB36_ne_nil (n : Nat) : (natToB36 n).data ≠ [] := by
  by_cases h : n = 0
  · subst h; decide
  · rw [natToB36, if_neg h]
    obtain ⟨m, rfl⟩ : ∃ m, n = m + 1 := ⟨n - 1, by omega⟩
    intro hcon
    have hlen := congrArg List.length hcon
    simp only [List.length_map, List.length_reverse, List.length_nil] at hlen
    exact List.cons_ne_nil _ _ (List.length_eq_zero.mp hlen)

/-- Appending character data commutes with string append. -/
theorem string_data_append (s t : String) : (s ++ t).data = s.data ++ t.data := by
  cases s; cases t; rfl

/-- Splitting at a separator absent from both first components is
unambiguous. -/
theorem append_dash_inj :
    ∀ (l1 r1 l2 r2 : List Char),
      (∀ c ∈ l1, c ≠ Char.ofNat 45) → (∀ c ∈ l2, c ≠ Char.ofNat 45) →
      l1 ++ Char.ofNat 45 :: r1 = l2 ++ Char.ofNat 45 :: r2 →
      l1 = l2 ∧ r1 = r2 := by
  intro l1
  induction l1 with
  | nil =>
    intro r1 l2 r2 _ h2 heq
    match l2 with
    | [] => exact ⟨rfl, by simpa using heq⟩
    | c :: t2 =>
      rw [List.nil_append, List.cons_append] at heq
      exact absurd (List.cons.inj heq).1.symm (h2 c (List.mem_cons_self c t2))
  | cons a t1 ih =>
    intro r1 l2 r2 h1 h2 heq
    match l2 with
    | [] =>
      rw [List.nil_append, List.cons_append] at heq
      exact absurd (List.cons.inj heq).1 (h1 a (List.mem_cons_self a t1))
    | c :: t2 =>
      rw [List.cons_append, List.cons_append] at heq
      obtain ⟨hac, htail⟩ := List.cons.inj heq
      obtain ⟨hl, hr⟩ := ih r1 t2 r2
        (fun x hx => h1 x (List.mem_cons_of_mem _ hx))
        (fun x hx => h2 x (List.mem_cons_of_mem _ hx)) htail
      exact ⟨by rw [hac, hl], hr⟩

/-- `intToB36` is injective at the character-list level. -/
theorem intToB36_data_inj (i j : Int)
    (h : (intToB36 i).data = (intToB36 j).data) : i = j := by
  have hdash : ("-" : String).data = [Char.ofNat 45] := by decide
  unfold intToB36 at h
  by_cases hi : i < 0 <;> by_cases hj : j < 0
  · rw [if_pos hi, if_pos hj, string_data_append, string_data_append, hdash] at h
    have hn := natToB36_data_inj (List.cons.inj h).2
    omega
  · rw [if_pos hi, if_neg hj, string_data_append, hdash] at h
    cases hr : (natToB36 j.toNat).data with
    | nil => exact absurd hr (natToB36_ne_nil _)
    | cons c rest =>
      rw [hr] at h
      exact absurd (List.cons.inj h).1.symm
        (natToB36_no_dash j.toNat c (by rw [hr]; exact List.mem_cons_self c rest))
  · rw [if_neg hi, if_pos hj, string_data_append, hdash] at h
    cases hr : (natToB36 i.toNat).data with
    | nil => exact absurd hr (natToB36_ne_nil _)
    | cons c rest =>
      rw [hr] at h
      exact absurd (List.cons.inj h.symm).1.symm
        (natToB36_no_dash i.toNat c (by rw [hr]; exact List.mem_cons_self c rest))
  · rw [if_neg hi, if_neg hj] at h
    have hn := natToB36_data_inj h
    omega

/-- Character data of an ETag splits as version digits, dash, frame
digits. -/
theorem toETag_data (v : Nat) (f : Int) :
    (toETag v f).data = (natToB36 v).data ++ Char.ofNat 45 :: (intToB36 f).data := by
  unfold toETag
  rw [string_data_append, string_data_append, List.append_assoc]
  rfl

/-- Claim C5: `toETag` is a pure function of `(version, frame)`:
deterministic, and injective over all versions and frames (in particular
over all uint64 versions and int64 frames), as required for correct 304
semantics. -/
theorem toETag_deterministic_injective :
    (∀ v f, toETag v f = toETag v f) ∧
    ∀ v1 f1 v2 f2, toETag v1 f1 = toETag v2 f2 → v1 = v2 ∧ f1 = f2 := by
  refine ⟨fun _ _ => rfl, ?_⟩
  intro v1 f1 v2 f2 h
  have hd := congrArg String.data h
  rw [toETag_data, toETag_data] at hd
  obtain ⟨h1, h2⟩ := append_dash_inj _ _ _ _
    (natToB36_no_dash v1) (natToB36_no_dash v2) hd
  exact ⟨natToB36_data_inj h1, intToB36_data_inj f1 f2 h2⟩

/-- Witness for `toETag_deterministic_injective` at a concrete pair,
with the token evaluated by kernel reduction. -/
theorem toETag_injective_witness : (41 : Nat) = 41 ∧ (-75 : Int) = -75 :=
  toETag_deterministic_injective.2 41 (-75) 41 (-75) (by decide)

/-- Claim C4: with no intervening `Set` the store is unchanged, so two
`/faces` requests return identical bodies and identical validation
tokens (the handler is a pure function of the store), and a second
request carrying `If-None-Match` equal to the first response's ETag
yields a 304 with an empty body and no ETag header. -/
theorem faces_conditional_get (s : FaceStore) (inm : String)
    (h : inm ≠ etagOf s) :
    facesHandler s inm = facesHandler s inm ∧
    (facesHandler s inm).status = 200 ∧
    (facesHandler s inm).etagHdr = some (etagOf s) ∧
    (facesHandler s inm).body = encodeSnapshot s.Get.1 ∧
    facesHandler s (etagOf s) = { status := 304, etagHdr := none, body := "" } := by
  unfold etagOf at h
  have h200 : facesHandler s inm =
      { status := 200, etagHdr := some (etagOf s), body := encodeSnapshot s.Get.1 } := by
    unfold facesHandler
    dsimp only
    rw [if_neg h]
    rfl
  have h304 : facesHandler s (etagOf s) =
      { status := 304, etagHdr := none, body := "" } := by
    unfold facesHandler etagOf
    dsimp only
    rw [if_pos rfl]
  exact ⟨rfl, by rw [h200], by rw [h200], by rw [h200], h304⟩

/-- Witness for `faces_conditional_get` on the initial store and a first
request without `If-None-Match`. -/
theorem faces_conditional_get_witness :
    ("" : String) ≠ etagOf FaceStore.init ∧
    ((facesHandler FaceStore.init "").status = 200 ∧
     (facesHandler FaceStore.init "").etagHdr = some (etagOf FaceStore.init) ∧
     (facesHandler FaceStore.init "").body = encodeSnapshot FaceStore.init.Get.1 ∧
     facesHandler FaceStore.init (etagOf FaceStore.init) =
       { status := 304, etagHdr := none, body := "" }) :=
  ⟨by decide, (faces_conditional_get FaceStore.init "" (by decide)).2⟩

/-- Reads do not change the store, so every read of a read-only schedule
observes the current snapshot/version pair. -/
theorem getOutputs_gets (ns : Snapshot) (s : FaceStore) (l : List Act)
    (h : IsGets l) : ∀ p ∈ getOutputs ns s l, p.2 = (s.snap, s.version) := by
  induction l with
  | nil => intro p hp; simp [getOutputs] at hp
  | cons a t ih =>
    intro p hp
    obtain ⟨i, rfl⟩ := h a (List.mem_cons_self a t)
    have hp2 : p ∈ (i, s.Get) :: getOutputs ns s t := hp
    rcases List.mem_cons.mp hp2 with h1 | h1
    · rw [h1]; rfl
    · exact ih (fun b hb => h b (List.mem_cons_of_mem _ hb)) p h1

/-- Claim C6: in every interleaving of one `Set` with any number of
concurrent `Get` calls in which the two writes of `Set` are not split by
a read — exactly what the `RWMutex` guarantees — every `Get` observes
either the prior snapshot with the prior version or the new snapshot
with the new version, never a mix. -/
theorem get_atomic_during_set (s0 : FaceStore) (ns : Snapshot) (g1 g2 : List Act)
    (h1 : IsGets g1) (h2 : IsGets g2) :
    ∀ p ∈ getOutputs ns s0 (g1 ++ Act.wSnap :: Act.wVer :: g2),
      p.2 = (s0.snap, s0.version) ∨ p.2 = (ns, (s0.version + 1) % 2 ^ 64) := by
  induction g1 generalizing s0 with
  | nil =>
    intro p hp
    rw [List.nil_append] at hp
    have hp2 : p ∈ getOutputs ns
        ({ snap := ns, version := (s0.version + 1) % 2 ^ 64 }) g2 := hp
    right
    exact getOutputs_gets ns _ g2 h2 p hp2
  | cons a t ih =>
    intro p hp
    obtain ⟨i, rfl⟩ := h1 a (List.mem_cons_self a t)
    rw [List.cons_append] at hp
    have hp2 : p ∈ (i, s0.Get) ::
        getOutputs ns s0 (t ++ Act.wSnap :: Act.wVer :: g2) := hp
    rcases List.mem_cons.mp hp2 with h | h
    · left; rw [h]; rfl
    · exact ih s0 (fun b hb => h1 b (List.mem_cons_of_mem _ hb)) p h

/-- Witness for `get_atomic_during_set` on the schedule
`get 0; Set; get 1` from the initial store: the second read observes the
new pair. -/
theorem get_atomic_witness :
    ((1, snapEx, 1 % 2 ^ 64) ∈
      getOutputs snapEx FaceStore.init ([Act.get 0] ++ Act.wSnap :: Act.wVer :: [Act.get 1])) ∧
    ((1, snapEx, 1 % 2 ^ 64).2 = (FaceStore.init.snap, FaceStore.init.version) ∨
     (1, snapEx, 1 % 2 ^ 64).2 = (snapEx, (FaceStore.init.version + 1) % 2 ^ 64)) :=
  ⟨by decide,
   get_atomic_during_set FaceStore.init snapEx [Act.get 0] [Act.get 1]
     (by intro a ha; rw [List.mem_singleton] at ha; exact ⟨0, ha⟩)
     (by intro a ha; rw [List.mem_singleton] at ha; exact ⟨1, ha⟩)
     (1, snapEx, 1 % 2 ^ 64) (by decide)⟩

/-- Claim C7 is false as stated: with the model environment variables set
to nonexistent paths, `getenvRequired` accepts them unchecked and the
detector failure happens in a goroutine concurrent with the HTTP server,
so a trace in which the listener starts accepting before the process
terminates is possible. -/
theorem main_listen_counterexample :
    envBad "FACE_PROTOTXT" ≠ "" ∧
    loadNone (envBad "FACE_PROTOTXT") (envBad "FACE_MODEL") = false ∧
    [MainEvent.listen, MainEvent.detectorFatal] ∈ mainTraces envBad diskNone loadNone := by
  refine ⟨by decide, rfl, ?_⟩
  show [MainEvent.listen, MainEvent.detectorFatal] ∈
    [[MainEvent.detectorFatal], [MainEvent.listen, MainEvent.detectorFatal]]
  exact List.mem_cons_of_mem _ (List.mem_singleton.mpr rfl)

/-- Claim C7 (amended): when the model paths cannot be loaded anywhere,
the process always terminates — but termination is ordered before the
listener only in the path-resolution failure case (environment variables
unset and defaults missing on disk); when the environment names
nonexistent files the fatal error comes from the concurrent detector
goroutine with no ordering guarantee against `listen`. -/
theorem main_termination_amended (env : String → String) (onDisk : String → Bool)
    (loadable : String → String → Bool)
    (hload : ∀ p m, loadable p m = false) :
    ((env "FACE_PROTOTXT" = "" ∧ onDisk "models/deploy.prototxt" = false) →
      mainTraces env onDisk loadable = [[MainEvent.fatalStartup]]) ∧
    ∀ t ∈ mainTraces env onDisk loadable,
      MainEvent.fatalStartup ∈ t ∨ MainEvent.detectorFatal ∈ t := by
  constructor
  · rintro ⟨h1, h2⟩
    unfold mainTraces getenvRequired
    rw [if_neg (by simp [h1]), if_neg (by rw [h2]; exact Bool.false_ne_true)]
  · intro t ht
    unfold mainTraces at ht
    rcases hp : getenvRequired env onDisk "FACE_PROTOTXT" "models/deploy.prototxt" with
      _ | prototxt
    · simp only [hp, List.mem_singleton] at ht
      subst ht
      exact Or.inl (List.mem_singleton.mpr rfl)
    · rcases hm : getenvRequired env onDisk "FACE_MODEL"
          "models/res10_300x300_ssd_iter_140000.caffemodel" with _ | model
      · simp only [hp, hm, List.mem_singleton] at ht
        subst ht
        exact Or.inl (List.mem_singleton.mpr rfl)
      · simp only [hp, hm, hload prototxt model, Bool.false_eq_true, if_false] at ht
        rcases List.mem_cons.mp ht with h | h
        · subst h
          exact Or.inr (List.mem_singleton.mpr rfl)
        · rw [List.mem_singleton.mp h]
          exact Or.inr (List.mem_cons_of_mem _ (List.mem_singleton.mpr rfl))

/-- Witness for `main_termination_amended`: with nothing configured and
nothing on disk, startup aborts before anything serves. -/
theorem main_termination_witness :
    mainTraces envEmpty diskNone loadNone = [[MainEvent.fatalStartup]] :=
  (main_termination_amended envEmpty diskNone loadNone (fun _ _ => rfl)).1 ⟨rfl, rfl⟩

end Tracking
